import Mathlib

/-!
Shallow embedding of the forward-rate / spread pipeline of
`src/Spread_calculations.py` (equity spot-futures arbitrage repository).

Conventions of the embedding:
* Calendar dates are integers (day numbers); all tables are taken in the
  date-sorted, duplicate-free form that the Python code establishes with
  `sort_values` before every `merge_asof`.
* A pandas `NaN` cell is `Option.none`; numeric cells are exact rationals.
* Rational division is Lean's total division (`a / 0 = 0`).  The Python code
  would produce IEEE `inf`/`NaN` on a zero denominator; no claim below
  exercises a zero denominator (futures prices and OIS discount factors are
  positive in the data model), and the one division whose denominator can be
  zero in practice (`abs_dev / rolling_mad_shifted`) is modelled exactly,
  including the `inf >= threshold` and `0/0` comparison outcomes, in
  `flagCond`.
-/

/-- Pointwise lift of a binary operation to `Option`, mirroring pandas
column arithmetic: the result is `NaN` (`none`) when either operand is. -/
def omap2 (f : ℚ → ℚ → ℚ) : Option ℚ → Option ℚ → Option ℚ
  | some a, some b => some (f a b)
  | _, _ => none

/-- Column subtraction with `NaN` propagation. -/
def osub (a b : Option ℚ) : Option ℚ := omap2 (fun x y => x - y) a b

/-- `pd.merge_asof(..., direction="backward")` against a date-sorted table:
the value of the last row whose key is `≤ q`, or `none` when every key
exceeds `q`. -/
def asofLookup {α : Type} (tbl : List (ℤ × α)) (q : ℤ) : Option α :=
  tbl.foldl (fun acc p => if p.1 ≤ q then some p.2 else acc) none

/-- Running-sum accumulator for `div_df["CumDiv"] = div_df["Daily_Div"].cumsum()`. -/
def cumTableAux : ℚ → List (ℤ × ℚ) → List (ℤ × ℚ)
  | _, [] => []
  | acc, (d, v) :: rest => (d, acc + v) :: cumTableAux (acc + v) rest

/-- Cumulative dividend table built from the daily dividend table. -/
def cumTable (l : List (ℤ × ℚ)) : List (ℤ × ℚ) := cumTableAux 0 l

/-- Median of a list of rationals, matching `np.median`: midpoint of the two
central elements for an even count.  (Only ever applied to nonempty lists.) -/
def medianOf (l : List ℚ) : ℚ :=
  let s := l.insertionSort (fun a b => a ≤ b)
  let n := s.length
  if n % 2 = 1 then s.getD (n / 2) 0
  else (s.getD (n / 2 - 1) 0 + s.getD (n / 2) 0) / 2

/-- Rolling-window median cell with `min_periods=1`: `NaN` entries are
skipped, and the result is `NaN` only when the window holds no observation. -/
def medianOpt (l : List (Option ℚ)) : Option ℚ :=
  let vals := l.reduceOption
  if vals = [] then none else some (medianOf vals)

/-- Rolling-window mean cell with `min_periods=1` (`NaN`-skipping). -/
def meanOpt (l : List (Option ℚ)) : Option ℚ :=
  let vals := l.reduceOption
  if vals = [] then none else some (vals.sum / (vals.length : ℚ))

/-- The slice of `x` seen by a centered rolling window of total width
`2*w+1` at position `i`: indices `i-w .. i+w`, clipped to the list. -/
def windowSlice (w : ℕ) (x : List (Option ℚ)) (i : ℕ) : List (Option ℚ) :=
  (x.drop (i - w)).take (i + w + 1 - (i - w))

/-- `df[colname].rolling(window=w*2+1, center=True, min_periods=1).median()`
at position `i`. -/
def rollingMedianAt (w : ℕ) (x : List (Option ℚ)) (i : ℕ) : Option ℚ :=
  medianOpt (windowSlice w x i)

/-- The rolling median after `.shift(1)`: position `i` reads position
`i-1`, position `0` becomes `NaN`. -/
def laggedMedianAt (w : ℕ) (x : List (Option ℚ)) (i : ℕ) : Option ℚ :=
  if i = 0 then none else rollingMedianAt w x (i - 1)

/-- The `abs_dev` column: `(df[colname] - rolling_median_shifted).abs()`. -/
def absDevList (w : ℕ) (x : List (Option ℚ)) : List (Option ℚ) :=
  (List.range x.length).map
    (fun i => omap2 (fun a b => |a - b|) (x.getD i none) (laggedMedianAt w x i))

/-- `abs_dev.rolling(window=w*2+1, center=True, min_periods=1).mean()`
after `.shift(1)`. -/
def laggedMadAt (w : ℕ) (ad : List (Option ℚ)) (i : ℕ) : Option ℚ :=
  if i = 0 then none else meanOpt (windowSlice w ad (i - 1))

/-- The comparison `(abs_dev / rolling_mad_shifted) >= threshold` under IEEE
semantics on exact operands: a `NaN` operand compares `False`; a positive
numerator over a zero denominator is `+inf`, hence `True`; `0/0` is `NaN`,
hence `False`. -/
def flagCond (a m : Option ℚ) (t : ℚ) : Bool :=
  match a, m with
  | some a, some m => if m = 0 then decide (a ≠ 0) else decide (t ≤ a / m)
  | _, _ => false

/-- The `bad_price` cell of `barndorff_nielsen_filter` at position `i`,
including the override `df.loc[df[colname].isna(), "bad_price"] = False`. -/
def bnFlagAt (w : ℕ) (t : ℚ) (x : List (Option ℚ)) (i : ℕ) : Bool :=
  if x.getD i none = none then false
  else flagCond ((absDevList w x).getD i none) (laggedMadAt w (absDevList w x) i) t

/-- The `bad_price` column of `barndorff_nielsen_filter`. -/
def bnFlags (w : ℕ) (t : ℚ) (x : List (Option ℚ)) : List Bool :=
  (List.range x.length).map (bnFlagAt w t x)

/-- The `{colname}_filtered` column:
`df[colname].where(~df["bad_price"], np.nan)`. -/
def bnFiltered (w : ℕ) (t : ℚ) (x : List (Option ℚ)) : List (Option ℚ) :=
  (List.range x.length).map (fun i => if bnFlagAt w t x i then none else x.getD i none)

/-- One row of `{index_code}_Calendar_spread.csv` after the `Date` parse and
`dropna(subset=["Date"])`: settlement dates are present (a `NaT` settlement
key would make `merge_asof` raise, which the data model excludes), while the
TTM and price cells may be `NaN`. -/
structure FutRow where
  date : ℤ
  t1Settle : ℤ
  t2Settle : ℤ
  t1TTM : Option ℚ
  t2TTM : Option ℚ
  t1Price : Option ℚ
  t2Price : Option ℚ
deriving DecidableEq, Inhabited

/-- The survival test of
`dropna(subset=["Term1_TTM","Term2_TTM","Term1_Futures_Price","Term2_Futures_Price"])`. -/
def keptRow (r : FutRow) : Bool :=
  r.t1TTM.isSome && r.t2TTM.isSome && r.t1Price.isSome && r.t2Price.isSome

/-- One row of the merged frame persisted to `{index_code}_Forward_Rates.csv`:
every intermediate column survives into the output file. -/
structure OutRow where
  date : ℤ
  t1Settle : ℤ
  t2Settle : ℤ
  t1TTM : ℚ
  t2TTM : ℚ
  t1Price : ℚ
  t2Price : ℚ
  ois : Option ℚ
  cumCur : Option ℚ
  cumT1 : Option ℚ
  cumT2 : Option ℚ
  divSum1 : Option ℚ
  divSum2 : Option ℚ
  divSum1Comp : Option ℚ
  divSum2Comp : Option ℚ
  impliedRaw : Option ℚ
  oisFwdRaw : Option ℚ
  cal : Option ℚ
  oisFwd : Option ℚ
  spread : Option ℚ
  spreadFiltered : Option ℚ
deriving DecidableEq, Inhabited

/-- The per-row body of `process_index_forward_rates`: the three backward
as-of merges, `Div_Sum1/2`, the half-period compounding, the implied and
OIS forward rates guarded by `np.where(dt > 0, ..., np.nan)`, and the raw
spread.  Applied only to rows that survive `keptRow`, whence the `getD 0`
projections of the four known-present cells. -/
def computeRow (oisTbl : List (ℤ × Option ℚ)) (cumTbl : List (ℤ × ℚ)) (r : FutRow) : OutRow :=
  let ois := (asofLookup oisTbl r.date).join
  let cumCur := asofLookup cumTbl r.date
  let cumT1 := asofLookup cumTbl r.t1Settle
  let cumT2 := asofLookup cumTbl r.t2Settle
  let divSum1 := osub cumT1 cumCur
  let divSum2 := osub cumT2 cumCur
  let ttm1 := r.t1TTM.getD 0
  let ttm2 := r.t2TTM.getD 0
  let p1 := r.t1Price.getD 0
  let p2 := r.t2Price.getD 0
  let divSum1Comp := omap2 (fun ds o => ds * (ttm1 / 2 / 360 * o + 1)) divSum1 ois
  let divSum2Comp := omap2 (fun ds o => ds * (ttm2 / 2 / 360 * o + 1)) divSum2 ois
  let impliedRaw := omap2 (fun dc2 dc1 => (p2 + dc2) / (p1 + dc1) - 1) divSum2Comp divSum1Comp
  let dt := ttm2 - ttm1
  let cal := if 0 < dt then impliedRaw.map (fun v => 100 * v * (360 / dt)) else none
  let oisFwdRaw := ois.map (fun o => (1 + o * ttm2 / 360) / (1 + o * ttm1 / 360) - 1)
  let oisFwd := if 0 < dt then oisFwdRaw.map (fun v => v * (360 / dt) * 100) else none
  let spread := osub cal oisFwd
  { date := r.date, t1Settle := r.t1Settle, t2Settle := r.t2Settle,
    t1TTM := ttm1, t2TTM := ttm2, t1Price := p1, t2Price := p2,
    ois := ois, cumCur := cumCur, cumT1 := cumT1, cumT2 := cumT2,
    divSum1 := divSum1, divSum2 := divSum2,
    divSum1Comp := divSum1Comp, divSum2Comp := divSum2Comp,
    impliedRaw := impliedRaw, oisFwdRaw := oisFwdRaw,
    cal := cal, oisFwd := oisFwd, spread := spread, spreadFiltered := none }

/-- The merged frame after the row-level drop and all per-row columns, in
date order, before the outlier filter runs. -/
def coreRows (fut : List FutRow) (oisTbl : List (ℤ × Option ℚ))
    (divTbl : List (ℤ × ℚ)) : List OutRow :=
  (fut.filter (fun r => keptRow r)).map (computeRow oisTbl (cumTable divTbl))

/-- The unscaled `spread_{index_code}` column handed to the outlier filter. -/
def coreSpreads (fut : List FutRow) (oisTbl : List (ℤ × Option ℚ))
    (divTbl : List (ℤ × ℚ)) : List (Option ℚ) :=
  (coreRows fut oisTbl divTbl).map (fun r => r.spread)

/-- Post-filter finalization of one row, given its `{spread}_filtered` cell:
`out_mask` nulls `cal_{index}_rf` and `spread_{index}` where the filtered
spread is `NaN`, and only afterwards is the spread column scaled by 100. -/
def finalizeRow (r : OutRow) (fopt : Option ℚ) : OutRow :=
  { r with cal := if fopt = none then none else r.cal,
           spread := (if fopt = none then none else r.spread).map (fun v => v * 100),
           spreadFiltered := fopt }

/-- The full computational core of `process_index_forward_rates` on parsed
in-memory tables: merge, drop, compute, Barndorff-Nielsen filter with
`window=45, threshold=10`, null the flagged rows, scale the spread to
basis points. -/
def process_forward_core (fut : List FutRow) (oisTbl : List (ℤ × Option ℚ))
    (divTbl : List (ℤ × ℚ)) : List OutRow :=
  ((coreRows fut oisTbl divTbl).zip
      (bnFiltered 45 10 (coreSpreads fut oisTbl divTbl))).map
    (fun p => finalizeRow p.1 p.2)

/-- The three index codes of `INDEX_CODES`. -/
inductive IndexCode where
  | SPX
  | NDX
  | INDU
deriving DecidableEq, Inhabited

/-- The exceptions the pipeline can raise: `pd.read_parquet` on a file
missing from both the input and the manual directory; the explicit
`ValueError` of `build_daily_dividends` for a missing dividend column;
the `KeyError` of `dropna(subset=[...])` when the futures file lacks one
of the four TTM/price columns; and the `KeyError` on `merged_df["OIS"]`
in the compounding step when the OIS file had no `OIS_3M` column (which
earlier only drew a warning, not an abort). -/
inductive PipeError where
  | fileNotFound
  | missingDivColumn
  | missingTtmPriceColumn
  | missingOisColumn
deriving DecidableEq, Inhabited

/-- Availability and content of one index's inputs, as seen by
`process_index_forward_rates`.  `futHasDate` is the presence of the
futures `Date` column, `futHasCols` the presence of all four columns of
the `dropna` subset (`Term1_TTM`, `Term2_TTM`, `Term1_Futures_Price`,
`Term2_Futures_Price`), `oisHasCol` the presence of the `OIS_3M` column
in the OIS file, and `divCol` the presence of the index's dividend
column in the parquet. -/
structure IndexInputs where
  futFile : Option (List FutRow)
  futHasDate : Bool
  futHasCols : Bool
  oisFile : Option (List (ℤ × Option ℚ))
  oisHasCol : Bool
  divFile : Option (List (ℤ × ℚ))
  divCol : Bool
deriving DecidableEq, Inhabited

/-- `build_daily_dividends`: raises when the parquet is missing from both
directories or when the index's dividend column is absent; otherwise
returns the daily dividend table. -/
def build_daily_dividends (inp : IndexInputs) : Except PipeError (List (ℤ × ℚ)) :=
  match inp.divFile with
  | none => Except.error PipeError.fileNotFound
  | some rows =>
      if inp.divCol then Except.ok rows else Except.error PipeError.missingDivColumn

/-- Control-flow skeleton of `process_index_forward_rates`: a missing
futures file, missing `Date` column, or missing OIS file is logged and
yields an empty frame.  Uncaught exceptions, in the order the source
reaches them: `build_daily_dividends` raises first (it is called before
the row-level drop); then `dropna(subset=[...])` raises `KeyError` when
a TTM/price column is absent from the futures file; then the compounding
step's `merged_df["OIS"]` raises `KeyError` when the OIS file had no
`OIS_3M` column (the rename step only logged a warning for that). -/
def process_index_forward_rates (inp : IndexInputs) :
    Except PipeError (List OutRow) :=
  match inp.futFile with
  | none => Except.ok []
  | some fut =>
      if inp.futHasDate = false then Except.ok []
      else
        match inp.oisFile with
        | none => Except.ok []
        | some ois =>
            match build_daily_dividends inp with
            | Except.error e => Except.error e
            | Except.ok divTbl =>
                if inp.futHasCols = false then Except.error PipeError.missingTtmPriceColumn
                else if inp.oisHasCol = false then Except.error PipeError.missingOisColumn
                else Except.ok (process_forward_core fut ois divTbl)

/-- The loop of `main` over `INDEX_CODES`: there is no `try`/`except`
around `process_index_forward_rates(idx)`, so a raised exception aborts
the remaining indices. -/
def mainRun : List (IndexCode × IndexInputs) →
    Except PipeError (List (IndexCode × List OutRow))
  | [] => Except.ok []
  | (code, inp) :: rest =>
      match process_index_forward_rates inp with
      | Except.error e => Except.error e
      | Except.ok res =>
          match mainRun rest with
          | Except.error e => Except.error e
          | Except.ok others => Except.ok ((code, res) :: others)

/-- The per-index outcome promised by the partial-failure design when no
uncaught fault is present (dividend inputs intact, TTM/price columns and
`OIS_3M` column present): an empty frame for a missing futures file,
missing `Date` column, or missing OIS file, and the computed table
otherwise. -/
def perIndexResult (inp : IndexInputs) : List OutRow :=
  match inp.futFile with
  | none => []
  | some fut =>
      if inp.futHasDate = false then []
      else
        match inp.oisFile with
        | none => []
        | some ois => process_forward_core fut ois (inp.divFile.getD [])

/-! Concrete tables used by counterexamples and witnesses. -/

/-- Futures table whose first row predates every OIS observation (so its
as-of short rate is `NaN`) and whose second row lacks `Term1_TTM`. -/
def futA : List FutRow :=
  [{ date := 5, t1Settle := 40, t2Settle := 130, t1TTM := some 30, t2TTM := some 120,
     t1Price := some 4000, t2Price := some 4020 },
   { date := 6, t1Settle := 40, t2Settle := 130, t1TTM := none, t2TTM := some 119,
     t1Price := some 4000, t2Price := some 4020 }]

/-- OIS table whose first observation is day 10. -/
def oisA : List (ℤ × Option ℚ) := [(10, some (3 / 100))]

/-- Trivial dividend table: a single zero dividend on day 0. -/
def divA : List (ℤ × ℚ) := [(0, 0)]

/-- A synthetic same-maturity row (`Term1_TTM = Term2_TTM = 30`). -/
def futB : List FutRow :=
  [{ date := 5, t1Settle := 40, t2Settle := 40, t1TTM := some 30, t2TTM := some 30,
     t1Price := some 4000, t2Price := some 4020 }]

/-- OIS table with a 3% rate available from day 0. -/
def oisB : List (ℤ × Option ℚ) := [(0, some (3 / 100))]

/-- A well-formed futures row: `TTM_1 = 30`, `TTM_2 = 120`. -/
def futC : List FutRow :=
  [{ date := 10, t1Settle := 40, t2Settle := 130, t1TTM := some 30, t2TTM := some 120,
     t1Price := some 4000, t2Price := some 4020 }]

/-- Dividend table with nonzero daily dividends on days 0, 35 and 120. -/
def divD : List (ℤ × ℚ) := [(0, 1), (35, 2), (120, 3)]

/-- First output row of the pipeline on the missing-short-rate tables. -/
def rowA : OutRow := (process_forward_core futA oisA divA).getD 0 default

/-- First output row of the pipeline on the same-maturity table. -/
def rowB : OutRow := (process_forward_core futB oisB divA).getD 0 default

/-- First output row of the pipeline on the well-formed table. -/
def rowC : OutRow := (process_forward_core futC oisB divA).getD 0 default

/-- First output row of the pipeline with nonzero dividends. -/
def rowD : OutRow := (process_forward_core futC oisB divD).getD 0 default

/-- Spread series: ten zeros, a mild deviation `1`, an extreme spike `100`. -/
def xTwo : List (Option ℚ) :=
  [some 0, some 0, some 0, some 0, some 0, some 0, some 0, some 0, some 0, some 0,
   some 1, some 100]

/-- Spread series: ten zeros followed by an extreme spike `100`. -/
def xSpike : List (Option ℚ) :=
  [some 0, some 0, some 0, some 0, some 0, some 0, some 0, some 0, some 0, some 0,
   some 100]

/-- Spread series whose first entry is missing. -/
def xMissing : List (Option ℚ) := [none, some 5]

/-- Spread series for the reference-median dependence check. -/
def xP : List (Option ℚ) := [some 0, some 0, some 10]

/-- `xP` with only the middle entry (index 1) changed. -/
def xQ : List (Option ℚ) := [some 0, some 6, some 10]

/-- Intact per-index inputs. -/
def goodInputs : IndexInputs :=
  { futFile := some futC, futHasDate := true, futHasCols := true,
    oisFile := some oisB, oisHasCol := true,
    divFile := some divA, divCol := true }

/-- Inputs whose dividend column is absent from the parquet. -/
def badDivInputs : IndexInputs :=
  { futFile := some futC, futHasDate := true, futHasCols := true,
    oisFile := some oisB, oisHasCol := true,
    divFile := some divA, divCol := false }

/-- Inputs whose futures file is missing. -/
def missFutInputs : IndexInputs :=
  { futFile := none, futHasDate := true, futHasCols := true,
    oisFile := some oisB, oisHasCol := true,
    divFile := some divA, divCol := true }

/-- Inputs whose OIS file exists but lacks the `OIS_3M` column. -/
def badOisColInputs : IndexInputs :=
  { futFile := some futC, futHasDate := true, futHasCols := true,
    oisFile := some oisB, oisHasCol := false,
    divFile := some divA, divCol := true }

/-- A run where the first index lacks its dividend column and the second is
intact. -/
def envsBad : List (IndexCode × IndexInputs) :=
  [(IndexCode.SPX, badDivInputs), (IndexCode.NDX, goodInputs)]

/-- A run where the first index lacks its futures file and the second is
intact. -/
def envsGood : List (IndexCode × IndexInputs) :=
  [(IndexCode.SPX, missFutInputs), (IndexCode.NDX, goodInputs)]

/-! Helper lemmas about the outlier filter's columns. -/

lemma bnFlags_length (w : ℕ) (t : ℚ) (x : List (Option ℚ)) :
    (bnFlags w t x).length = x.length := by
  simp [bnFlags]

lemma bnFiltered_length (w : ℕ) (t : ℚ) (x : List (Option ℚ)) :
    (bnFiltered w t x).length = x.length := by
  simp [bnFiltered]

lemma bnFiltered_getElem? (w : ℕ) (t : ℚ) (x : List (Option ℚ)) (i : ℕ)
    (h : i < x.length) :
    (bnFiltered w t x)[i]? = some (if bnFlagAt w t x i then none else x.getD i none) := by
  simp [bnFiltered, List.getElem?_map, List.getElem?_range h]

lemma bnFlags_getD_lt (w : ℕ) (t : ℚ) (x : List (Option ℚ)) (i : ℕ)
    (h : i < x.length) :
    (bnFlags w t x).getD i false = bnFlagAt w t x i := by
  rw [List.getD_eq_getD_get?, List.get?_eq_getElem?]
  simp [bnFlags, List.getElem?_map, List.getElem?_range h]

lemma bnFlags_getD_ge (w : ℕ) (t : ℚ) (x : List (Option ℚ)) (i : ℕ)
    (h : x.length ≤ i) :
    (bnFlags w t x).getD i false = false := by
  have hlen : (bnFlags w t x).length ≤ i := by
    rw [bnFlags_length]; exact h
  rw [List.getD_eq_getD_get?, List.get?_eq_getElem?, List.getElem?_eq_none hlen]
  rfl

lemma bnFiltered_getD_lt (w : ℕ) (t : ℚ) (x : List (Option ℚ)) (i : ℕ)
    (h : i < x.length) :
    (bnFiltered w t x).getD i none = if bnFlagAt w t x i then none else x.getD i none := by
  rw [List.getD_eq_getD_get?, List.get?_eq_getElem?, bnFiltered_getElem? w t x i h]
  rfl

/-- A row with a missing raw value is never flagged (shared by C7 and C8). -/
lemma bnFlags_getD_of_none (w : ℕ) (t : ℚ) (x : List (Option ℚ)) (i : ℕ)
    (h : x.getD i none = none) :
    (bnFlags w t x).getD i false = false := by
  rcases lt_or_le i x.length with hi | hi
  · rw [bnFlags_getD_lt w t x i hi]
    unfold bnFlagAt
    rw [if_pos h]
  · exact bnFlags_getD_ge w t x i hi

/-- Two series agreeing on the clipped window centered at `k` yield equal
window slices there. -/
lemma windowSlice_congr (w k : ℕ) (x y : List (Option ℚ))
    (h : ∀ j, j ≤ k + w → (k - w ≤ j → x[j]? = y[j]?)) :
    windowSlice w x k = windowSlice w y k := by
  apply List.ext_getElem?
  intro m
  unfold windowSlice
  rw [List.getElem?_take, List.getElem?_take, List.getElem?_drop, List.getElem?_drop]
  split
  · next hm =>
    apply h
    · omega
    · omega
  · rfl

/-- C8: in the outlier filter, every row whose raw spread value is missing
receives an outlier flag of `false`, regardless of the value of the
`abs_dev / lagged-MAD` ratio at that row. -/
theorem spread_C8 (w : ℕ) (t : ℚ) (x : List (Option ℚ)) (i : ℕ)
    (h : x.getD i none = none) :
    (bnFlags w t x).getD i false = false :=
  bnFlags_getD_of_none w t x i h

/-- C8 witness: the first (missing) entry of `xMissing` is unflagged. -/
theorem spread_C8_witness : (bnFlags 45 10 xMissing).getD 0 false = false :=
  spread_C8 45 10 xMissing 0 (by decide!)

/-- C7 counterexample: the filter is not idempotent.  On `xTwo` the first
pass flags only the spike at index 11 and leaves index 10 unflagged, yet
re-running the filter on the nulled series flags index 10 — an additional
flagged point. -/
theorem spread_C7_counterexample :
    (bnFlags 45 10 xTwo).getD 10 false = false
      ∧ (bnFlags 45 10 xTwo).getD 11 false = true
      ∧ (bnFlags 45 10 (bnFiltered 45 10 xTwo)).getD 10 false = true := by
  decide!

/-- C7 amended: a second application of the filter never flags a point the
first application flagged (its value is now missing, and missing rows are
never flagged); additional points, however, may be flagged. -/
theorem spread_C7_amended (w : ℕ) (t : ℚ) (x : List (Option ℚ)) (i : ℕ)
    (h : (bnFlags w t x).getD i false = true) :
    (bnFlags w t (bnFiltered w t x)).getD i false = false := by
  have hi : i < x.length := by
    by_contra hc
    rw [bnFlags_getD_ge w t x i (le_of_not_lt hc)] at h
    exact Bool.false_ne_true h
  rw [bnFlags_getD_lt w t x i hi] at h
  have hy : (bnFiltered w t x).getD i none = none := by
    rw [bnFiltered_getD_lt w t x i hi, h]
    rfl
  exact bnFlags_getD_of_none w t (bnFiltered w t x) i hy

/-- C7 amended witness: on `xSpike` the first pass flags index 10, and the
second pass does not re-flag it. -/
theorem spread_C7_witness :
    (bnFlags 45 10 xSpike).getD 10 false = true
      ∧ (bnFlags 45 10 (bnFiltered 45 10 xSpike)).getD 10 false = false :=
  ⟨by decide!, spread_C7_amended 45 10 xSpike 10 (by decide!)⟩

/-- C6 counterexample: the lagged reference rolling median at date `t` CAN
depend on the spread value at `t` itself: `xP` and `xQ` differ only at
index 1, yet their lagged rolling medians at index 1 differ (`0` vs `6`),
because the centered window at index 0 contains index 1. -/
theorem spread_C6_counterexample :
    xP[0]? = xQ[0]? ∧ xP[2]? = xQ[2]? ∧ xP.length = xQ.length
      ∧ laggedMedianAt 45 xP 1 ≠ laggedMedianAt 45 xQ 1 := by
  decide!

/-- C6 amended: the lagged reference median at `i` is the centered rolling
median at row `i-1`; it depends only on the spread values at positions
`i-1-window .. i-1+window` (a range that still contains `i` itself whenever
`window ≥ 1`): two series agreeing there have equal lagged medians at `i`. -/
theorem spread_C6_amended (w i : ℕ) (x y : List (Option ℚ))
    (h : ∀ j, j ≤ i - 1 + w → (i - 1 - w ≤ j → x[j]? = y[j]?)) :
    laggedMedianAt w x i = laggedMedianAt w y i := by
  unfold laggedMedianAt
  split
  · rfl
  · unfold rollingMedianAt
    rw [windowSlice_congr w (i - 1) x y h]

/-- C6 amended witness: two four-point series agreeing on the window
centered at index 1 (width 1) have the same lagged median at index 2. -/
theorem spread_C6_witness :
    laggedMedianAt 1 [some 1, some 2, some 3, some 9] 2
      = laggedMedianAt 1 [some 1, some 2, some 3, some 7] 2 :=
  spread_C6_amended 1 2 [some 1, some 2, some 3, some 9]
    [some 1, some 2, some 3, some 7] (by decide!)

/-! Helper lemmas about the pipeline's rows. -/

lemma omap2_none_right (f : ℚ → ℚ → ℚ) (a : Option ℚ) : omap2 f a none = none := by
  cases a <;> rfl

lemma omap2_none_left (f : ℚ → ℚ → ℚ) (b : Option ℚ) : omap2 f none b = none := by
  cases b <;> rfl

/-- Pointwise-equal operations lift to equal columns. -/
lemma omap2_congr (f g : ℚ → ℚ → ℚ) (a b : Option ℚ) (h : ∀ x y, f x y = g x y) :
    omap2 f a b = omap2 g a b := by
  cases a <;> cases b <;> simp [omap2, h]

/-- Every output row is the finalization of a pre-filter row. -/
lemma mem_core_decomp {fut : List FutRow} {oisTbl : List (ℤ × Option ℚ)}
    {divTbl : List (ℤ × ℚ)} {r : OutRow}
    (h : r ∈ process_forward_core fut oisTbl divTbl) :
    ∃ q fopt, q ∈ coreRows fut oisTbl divTbl ∧ r = finalizeRow q fopt := by
  unfold process_forward_core at h
  obtain ⟨⟨q, fopt⟩, hp, rfl⟩ := List.mem_map.mp h
  exact ⟨q, fopt, (List.of_mem_zip hp).1, rfl⟩

/-- Every pre-filter row is computed from a surviving input row. -/
lemma mem_coreRows_decomp {fut : List FutRow} {oisTbl : List (ℤ × Option ℚ)}
    {divTbl : List (ℤ × ℚ)} {q : OutRow} (h : q ∈ coreRows fut oisTbl divTbl) :
    ∃ k, k ∈ fut.filter (fun r => keptRow r) ∧ q = computeRow oisTbl (cumTable divTbl) k := by
  unfold coreRows at h
  obtain ⟨k, hk, rfl⟩ := List.mem_map.mp h
  exact ⟨k, hk, rfl⟩

/-- Positional decomposition of an output row: its pre-filter row sits at
the same index, the filter input there is that row's spread, and the
finalization mask is the filter's flag at that index. -/
lemma core_getElem_decomp {fut : List FutRow} {oisTbl : List (ℤ × Option ℚ)}
    {divTbl : List (ℤ × ℚ)} {i : ℕ} {r : OutRow}
    (h : (process_forward_core fut oisTbl divTbl)[i]? = some r) :
    ∃ q, (coreRows fut oisTbl divTbl)[i]? = some q
      ∧ (coreSpreads fut oisTbl divTbl).getD i none = q.spread
      ∧ i < (coreSpreads fut oisTbl divTbl).length
      ∧ r = finalizeRow q
          (if bnFlagAt 45 10 (coreSpreads fut oisTbl divTbl) i then none else q.spread) := by
  unfold process_forward_core at h
  rw [List.getElem?_map] at h
  cases hz : ((coreRows fut oisTbl divTbl).zip
      (bnFiltered 45 10 (coreSpreads fut oisTbl divTbl)))[i]? with
  | none => rw [hz] at h; cases h
  | some p =>
    rw [hz] at h
    obtain ⟨h1, h2⟩ := List.getElem?_zip_eq_some.mp hz
    have hi : i < (coreSpreads fut oisTbl divTbl).length := by
      have hlt : i < (coreRows fut oisTbl divTbl).length := by
        by_contra hc
        rw [List.getElem?_eq_none (le_of_not_lt hc)] at h1
        cases h1
      unfold coreSpreads
      rw [List.length_map]
      exact hlt
    have hsp : (coreSpreads fut oisTbl divTbl).getD i none = p.1.spread := by
      rw [List.getD_eq_getD_get?, List.get?_eq_getElem?]
      unfold coreSpreads
      rw [List.getElem?_map, h1]
      rfl
    rw [bnFiltered_getElem? 45 10 _ i hi] at h2
    have hp2 : p.2 = if bnFlagAt 45 10 (coreSpreads fut oisTbl divTbl) i then none
        else p.1.spread := by
      rw [← hsp]
      exact (Option.some_inj.mp h2).symm
    refine ⟨p.1, h1, hsp, hi, ?_⟩
    have hr : finalizeRow p.1 p.2 = r := by simpa using h
    rw [← hr, hp2]

/-- C2: for every output row, the implied forward rate `cal_{INDEX}_rf` and
the OIS-implied forward rate `ois_fwd_{INDEX}` are defined only when
`Term2_TTM > Term1_TTM`: any row with `Term2_TTM ≤ Term1_TTM` (including
equal maturities) carries `NaN` in both columns, never a finite number. -/
theorem spread_C2 (fut : List FutRow) (oisTbl : List (ℤ × Option ℚ))
    (divTbl : List (ℤ × ℚ)) (r : OutRow)
    (hr : r ∈ process_forward_core fut oisTbl divTbl)
    (hle : r.t2TTM ≤ r.t1TTM) : r.cal = none ∧ r.oisFwd = none := by
  obtain ⟨q, fopt, hq, rfl⟩ := mem_core_decomp hr
  obtain ⟨k, hk, rfl⟩ := mem_coreRows_decomp hq
  simp only [finalizeRow, computeRow] at hle ⊢
  have hnot : ¬ (0 : ℚ) < k.t2TTM.getD 0 - k.t1TTM.getD 0 :=
    not_lt.mpr (sub_nonpos.mpr hle)
  rw [if_neg hnot, if_neg hnot]
  constructor
  · split <;> rfl
  · rfl

/-- C2 witness: a synthetic same-maturity row (`Term1_TTM = Term2_TTM = 30`)
yields `NaN` for both forward rates. -/
theorem spread_C2_witness : rowB.cal = none ∧ rowB.oisFwd = none :=
  spread_C2 futB oisB divA rowB (by decide!) (by decide!)

/-- C3: for every output row with as-of short rate `r` and maturities
`TTM_1 < TTM_2`, the OIS-implied forward equals
`100 * ((1 + r*TTM_2/360) / (1 + r*TTM_1/360) - 1) * 360 / (TTM_2 - TTM_1)`. -/
theorem spread_C3 (fut : List FutRow) (oisTbl : List (ℤ × Option ℚ))
    (divTbl : List (ℤ × ℚ)) (r : OutRow)
    (hr : r ∈ process_forward_core fut oisTbl divTbl)
    (p : ℚ) (ho : r.ois = some p) (hdt : r.t1TTM < r.t2TTM) :
    r.oisFwd = some (100 * ((1 + p * r.t2TTM / 360) / (1 + p * r.t1TTM / 360) - 1)
      * 360 / (r.t2TTM - r.t1TTM)) := by
  obtain ⟨q, fopt, hq, rfl⟩ := mem_core_decomp hr
  obtain ⟨k, hk, rfl⟩ := mem_coreRows_decomp hq
  simp only [finalizeRow, computeRow] at ho hdt ⊢
  have hpos : (0 : ℚ) < k.t2TTM.getD 0 - k.t1TTM.getD 0 := sub_pos.mpr hdt
  rw [if_pos hpos, ho]
  simp only [Option.map_some']
  congr 1
  ring

/-- C3 witness: with `OIS = 0.03`, `TTM_1 = 30`, `TTM_2 = 120`, the
OIS-implied forward evaluates to `1200/401 ≈ 2.9925`. -/
theorem spread_C3_witness : rowC.oisFwd = some (1200 / 401) := by
  have h := spread_C3 futC oisB divA rowC (by decide!) (3 / 100) (by decide!) (by decide!)
  rw [h]
  decide!

/-- C4: for every output row and each leg `i ∈ {1,2}`, the compounded
dividend sum equals `Div_Sum_i * (1 + OIS * (TTM_i / 2) / 360)`, where
`Div_Sum_i` is the cumulative dividend at the leg-`i` settlement date
(backward as-of lookup) minus the cumulative dividend at the observation
date. -/
theorem spread_C4 (fut : List FutRow) (oisTbl : List (ℤ × Option ℚ))
    (divTbl : List (ℤ × ℚ)) (r : OutRow)
    (hr : r ∈ process_forward_core fut oisTbl divTbl) :
    r.divSum1Comp = omap2 (fun ds p => ds * (1 + p * (r.t1TTM / 2) / 360)) r.divSum1 r.ois
      ∧ r.divSum2Comp = omap2 (fun ds p => ds * (1 + p * (r.t2TTM / 2) / 360)) r.divSum2 r.ois
      ∧ r.divSum1 = osub (asofLookup (cumTable divTbl) r.t1Settle)
          (asofLookup (cumTable divTbl) r.date)
      ∧ r.divSum2 = osub (asofLookup (cumTable divTbl) r.t2Settle)
          (asofLookup (cumTable divTbl) r.date) := by
  obtain ⟨q, fopt, hq, rfl⟩ := mem_core_decomp hr
  obtain ⟨k, hk, rfl⟩ := mem_coreRows_decomp hq
  simp only [finalizeRow, computeRow]
  refine ⟨?_, ?_, trivial, trivial⟩
  · exact omap2_congr _ _ _ _ (fun x y => by ring)
  · exact omap2_congr _ _ _ _ (fun x y => by ring)

/-- C4 witness: with cumulative dividends `1, 3, 6` at days `0, 35, 120`,
observation day 10 and settlements at days 40 and 130, the compounding
identity holds at the computed row (`Div_Sum1 = 2`, `Div_Sum2 = 5`). -/
theorem spread_C4_witness :
    rowD.divSum1 = some 2 ∧ rowD.divSum2 = some 5
      ∧ rowD.divSum1Comp
        = omap2 (fun ds p => ds * (1 + p * (rowD.t1TTM / 2) / 360)) rowD.divSum1 rowD.ois :=
  ⟨by decide!, by decide!, (spread_C4 futC oisB divD rowD (by decide!)).1⟩

/-- C1 counterexample: the row-level drop covers only the TTM and futures
price columns, not the short rate.  On `futA`/`oisA` the day-5 row's as-of
short rate is missing, yet the row still appears in the output table (with
`NaN` results), contradicting the claim that such a row contributes no row
at all. -/
theorem spread_C1_counterexample :
    (process_forward_core futA oisA divA).map (fun r => (r.date, r.ois, r.cal, r.spread))
      = [((5 : ℤ), (none : Option ℚ), (none : Option ℚ), (none : Option ℚ))] := by
  decide!

/-- C1 amended: rows missing a TTM or a futures price are excluded entirely
(the output rows are exactly the surviving input rows, in order), while a
row whose as-of short rate is missing is retained with all dependent
results (`cal_{INDEX}_rf`, `ois_fwd_{INDEX}`, `spread_{INDEX}`) missing. -/
theorem spread_C1_amended (fut : List FutRow) (oisTbl : List (ℤ × Option ℚ))
    (divTbl : List (ℤ × ℚ)) :
    (process_forward_core fut oisTbl divTbl).map (fun r => r.date)
        = (fut.filter (fun r => keptRow r)).map (fun r => r.date)
      ∧ ∀ r, r ∈ process_forward_core fut oisTbl divTbl → r.ois = none →
          r.cal = none ∧ r.oisFwd = none ∧ r.spread = none := by
  constructor
  · have hlen : (coreRows fut oisTbl divTbl).length
        ≤ (bnFiltered 45 10 (coreSpreads fut oisTbl divTbl)).length := by
      rw [bnFiltered_length]
      unfold coreSpreads
      rw [List.length_map]
    unfold process_forward_core
    rw [List.map_map]
    have h1 : ((fun r : OutRow => r.date) ∘ fun p : OutRow × Option ℚ => finalizeRow p.1 p.2)
        = (fun r : OutRow => r.date) ∘ Prod.fst := rfl
    rw [h1, ← List.map_map, List.map_fst_zip _ _ hlen]
    unfold coreRows
    rw [List.map_map]
    rfl
  · intro r hr ho
    obtain ⟨q, fopt, hq, rfl⟩ := mem_core_decomp hr
    obtain ⟨k, hk, rfl⟩ := mem_coreRows_decomp hq
    simp only [finalizeRow, computeRow] at ho ⊢
    rw [ho]
    simp only [omap2_none_right, omap2_none_left, Option.map_none', osub, omap2_none_right]
    refine ⟨?_, ?_, ?_⟩
    · split
      · rfl
      · split <;> simp
    · split <;> rfl
    · split
      · rfl
      · split <;> simp [omap2]

/-- C1 amended witness: on `futA` the TTM-less day-6 row is excluded while
the day-5 row (missing short rate) survives with `cal` missing. -/
theorem spread_C1_witness :
    (process_forward_core futA oisA divA).map (fun r => r.date)
        = (futA.filter (fun r => keptRow r)).map (fun r => r.date)
      ∧ rowA.cal = none :=
  ⟨(spread_C1_amended futA oisA divA).1,
   ((spread_C1_amended futA oisA divA).2 rowA (by decide!) (by decide!)).1⟩

/-- C5: the flagging decision is taken on the unscaled spread, and the
`×100` scaling to basis points happens only after filtering and nulling:
at every unflagged position the persisted `spread_{INDEX}` value is exactly
100 times the unscaled spread at that position. -/
theorem spread_C5 (fut : List FutRow) (oisTbl : List (ℤ × Option ℚ))
    (divTbl : List (ℤ × ℚ)) (i : ℕ) (r : OutRow)
    (h : (process_forward_core fut oisTbl divTbl)[i]? = some r)
    (hflag : (bnFlags 45 10 (coreSpreads fut oisTbl divTbl)).getD i false = false) :
    r.spread = ((coreSpreads fut oisTbl divTbl).getD i none).map (fun v => v * 100) := by
  obtain ⟨q, hq, hsp, hi, rfl⟩ := core_getElem_decomp h
  rw [bnFlags_getD_lt 45 10 _ i hi] at hflag
  rw [hflag, hsp]
  simp only [finalizeRow, Bool.false_eq_true, if_false]
  cases hqs : q.spread with
  | none => simp [hqs]
  | some v => simp [hqs]

/-- C5 witness: on the well-formed table the single row is unflagged and
its persisted spread is `100` times the unscaled spread `-398/401`. -/
theorem spread_C5_witness :
    rowC.spread = ((coreSpreads futC oisB divA).getD 0 none).map (fun v => v * 100) :=
  spread_C5 futC oisB divA 0 rowC (by decide!) (by decide!)

/-- C10: in the final table, every row whose `spread_{INDEX}` value is
missing also has a missing `cal_{INDEX}_rf`: the post-filter nulling mask
is the missingness of the filtered spread, which covers both flagged
outliers and rows whose raw spread was already missing, so a defined
implied forward rate never survives alongside an undefined spread. -/
theorem spread_C10 (fut : List FutRow) (oisTbl : List (ℤ × Option ℚ))
    (divTbl : List (ℤ × ℚ)) (i : ℕ) (r : OutRow)
    (h : (process_forward_core fut oisTbl divTbl)[i]? = some r)
    (hs : r.spread = none) : r.cal = none := by
  obtain ⟨q, hq, hsp, hi, rfl⟩ := core_getElem_decomp h
  by_cases hflag : bnFlagAt 45 10 (coreSpreads fut oisTbl divTbl) i
  · simp [finalizeRow, hflag]
  · simp only [finalizeRow, hflag, Bool.false_eq_true, if_false] at hs ⊢
    cases hqs : q.spread with
    | none => simp [hqs]
    | some v =>
      rw [hqs] at hs
      simp at hs

/-- C10 witness: the day-5 row of the missing-short-rate table has a missing
final spread and, accordingly, a missing implied forward rate. -/
theorem spread_C10_witness : rowA.spread = none ∧ rowA.cal = none :=
  ⟨by decide!, spread_C10 futA oisA divA 0 rowA (by decide!) (by decide!)⟩

/-- C9 counterexample: `main` wraps `process_index_forward_rates(idx)` in no
`try`/`except`, so an uncaught exception aborts the whole multi-index run.
With SPX lacking its dividend column and NDX fully intact, the
`ValueError` of `build_daily_dividends` errors the run out and NDX never
yields a result, even though NDX alone would succeed; likewise when SPX's
OIS file merely lacks its `OIS_3M` column, the `KeyError` at the
compounding step aborts the run. -/
theorem spread_C9_counterexample :
    mainRun envsBad = Except.error PipeError.missingDivColumn
      ∧ process_index_forward_rates goodInputs
          = Except.ok (process_forward_core futC oisB divA)
      ∧ mainRun [(IndexCode.SPX, badOisColInputs), (IndexCode.NDX, goodInputs)]
          = Except.error PipeError.missingOisColumn :=
  ⟨rfl, rfl, rfl⟩

/-- C9 amended: a missing futures file, missing `Date` column, or missing
OIS file is fatal only to that index (logged, empty result, siblings
continue); but a missing dividend column (or the dividend parquet missing
from both locations), a futures file lacking one of the TTM/price columns
of the drop step, or an OIS file lacking its `OIS_3M` column raises an
uncaught exception (`ValueError` or `KeyError`) that aborts the remaining
indices of the run. -/
theorem spread_C9_amended (envs : List (IndexCode × IndexInputs))
    (h : ∀ p ∈ envs, p.2.divFile.isSome = true ∧ p.2.divCol = true
      ∧ p.2.futHasCols = true ∧ p.2.oisHasCol = true) :
    mainRun envs = Except.ok (envs.map (fun p => (p.1, perIndexResult p.2))) := by
  induction envs with
  | nil => rfl
  | cons hd tl ih =>
    obtain ⟨code, inp⟩ := hd
    obtain ⟨h1, h2, h3, h4⟩ := h (code, inp) (List.mem_cons_self _ _)
    obtain ⟨divRows, hdiv⟩ := Option.isSome_iff_exists.mp h1
    have h2a : inp.divCol = true := h2
    have h3a : inp.futHasCols = true := h3
    have h4a : inp.oisHasCol = true := h4
    have hdiva : inp.divFile = some divRows := hdiv
    have hok : process_index_forward_rates inp = Except.ok (perIndexResult inp) := by
      unfold process_index_forward_rates perIndexResult build_daily_dividends
      rw [hdiva]
      cases hf : inp.futFile with
      | none => rfl
      | some fut =>
        cases hh : inp.futHasDate with
        | false => rfl
        | true =>
          cases hois : inp.oisFile with
          | none => rfl
          | some ois => simp [h2a, h3a, h4a]
    have htl : mainRun tl = Except.ok (tl.map (fun p => (p.1, perIndexResult p.2))) :=
      ih (fun p hp => h p (List.mem_cons_of_mem _ hp))
    unfold mainRun
    rw [hok, htl]
    rfl

/-- C9 amended witness: with SPX's futures file missing and NDX intact (all
columns present everywhere), the run completes, SPX yields an empty table
and NDX its computed table. -/
theorem spread_C9_witness :
    mainRun envsGood = Except.ok (envsGood.map (fun p => (p.1, perIndexResult p.2))) :=
  spread_C9_amended envsGood (by decide!)
